import Mathlib

/-!
Shallow embedding of the dao-m8 conversation/summary state machine
(`src/database.py`, command handlers in `src/bot.py`) and of the prompt /
completion engine (`src/agent/__init__.py`, `src/agent/prompt_manager.py`).

Database rows are modelled as structures, the database as lists of rows, and
each `@staticmethod` operation as a pure function from the database to a
result together with the updated database.  Timestamps are abstract `Nat`
values passed in as `now`.  The token counter (`nltk.word_tokenize` based
`calculate_number_of_tokens`) is an abstract function `tok : String → Nat`.
-/

namespace DaoM8

/-! ## Data model (database.py) -/

/-- ConversationState enum of database.py. -/
inductive ConversationState where
  | active
  | inactive
  | complete
  | cancelled
deriving DecidableEq

/-- SummaryState enum of database.py. -/
inductive SummaryState where
  | pending
  | complete
  | failed
deriving DecidableEq

/-- The value SQLAlchemy stores in the `state` column for a SummaryState
member: the member's name. -/
def SummaryState.columnValue : SummaryState → String
  | .pending => "pending"
  | .complete => "complete"
  | .failed => "failed"

/-- Python's `str()` of a SummaryState member, as produced by
`summary.state = str(state)` in `Summary.mark`: for a plain `enum.Enum`
member this is `"SummaryState.<name>"`, not the bare name. -/
def SummaryState.pyStr : SummaryState → String
  | .pending => "SummaryState.pending"
  | .complete => "SummaryState.complete"
  | .failed => "SummaryState.failed"

/-- A row of the `conversations` table. -/
structure Conversation where
  id : Nat
  chatId : Nat
  agenda : Option String
  state : ConversationState
  ipfsHash : Option String
  createdAt : Nat
  updatedAt : Nat
deriving DecidableEq

/-- A row of the `summaries` table.  The `state` column is modelled as the
string SQLAlchemy's Enum column holds, because `Summary.mark` writes
`str(state)` into it (see `SummaryState.pyStr`). -/
structure Summary where
  id : Nat
  conversationId : Nat
  messageCount : Nat
  state : String
  text : Option String
  createdAt : Nat
  updatedAt : Nat
deriving DecidableEq

/-- A row of the `messages` table. -/
structure Message where
  id : Nat
  conversationId : Nat
  fromUserId : Nat
  replyToMessageId : Option Nat
  text : String
  timestamp : Nat
deriving DecidableEq

/-- The persisted state: chats (only ids matter here), conversations,
summaries and messages. -/
structure Db where
  chats : List Nat
  conversations : List Conversation
  summaries : List Summary
  messages : List Message
deriving DecidableEq

/-! ## Conversation operations (database.py) -/

/-- The filter used by `Conversation.active`:
`Conversation.chat_id == chat_id, Conversation.state == "active"`. -/
def isActiveFor (chatId : Nat) (c : Conversation) : Bool :=
  c.chatId == chatId && c.state == ConversationState.active

/-- Conversation.active (database.py 357-379): the first conversation of the
chat in state active, or none. -/
def Conversation.activeOf (chatId : Nat) (db : Db) : Option Conversation :=
  db.conversations.find? (isActiveFor chatId)

/-- Fresh autoincrement id for a new conversations row. -/
def nextConversationId (db : Db) : Nat :=
  db.conversations.foldl (fun m c => max m c.id) 0 + 1

/-- Conversation.create (database.py 381-426): returns none and leaves the
database unchanged when the chat already has an active conversation,
otherwise adds a new conversation in state active. -/
def Conversation.create (chatId : Nat) (agenda : String) (now : Nat) (db : Db) :
    Option Conversation × Db :=
  match Conversation.activeOf chatId db with
  | some _ => (none, db)
  | none =>
    let c : Conversation :=
      { id := nextConversationId db, chatId := chatId, agenda := some agenda,
        state := ConversationState.active, ipfsHash := none,
        createdAt := now, updatedAt := now }
    (some c, { db with conversations := db.conversations ++ [c] })

/-- Conversation.read (database.py 428-443): select by id and chat id. -/
def Conversation.read (chatId conversationId : Nat) (db : Db) : Option Conversation :=
  db.conversations.find? (fun c => c.id == conversationId && c.chatId == chatId)

/-- Conversation.enter (database.py 499-515): reads the target by id and chat
id; when present, sets its state to active unconditionally -- the source
performs no single-active-per-chat check and no check of the prior state. -/
def Conversation.enter (chatId conversationId : Nat) (now : Nat) (db : Db) :
    Option Conversation × Db :=
  match Conversation.read chatId conversationId db with
  | none => (none, db)
  | some c =>
    let c' := { c with state := ConversationState.active, updatedAt := now }
    (some c',
     { db with conversations :=
        db.conversations.map (fun x => if x.id == c.id then c' else x) })

/-- Conversation.update_state (database.py 517-536): raises when asked to set
state active; otherwise moves the chat's current active conversation to the
given state (none when there is no active conversation). -/
def Conversation.updateState (chatId : Nat) (state : ConversationState) (now : Nat)
    (db : Db) : Except String (Option Conversation × Db) :=
  if state == ConversationState.active then
    Except.error "Cannot set state to active. Call enter instead"
  else
    match Conversation.activeOf chatId db with
    | none => Except.ok (none, db)
    | some c =>
      let c' := { c with state := state, updatedAt := now }
      Except.ok (some c',
        { db with conversations :=
            db.conversations.map (fun x => if x.id == c.id then c' else x) })

/-- Conversation.set_ipfs_hash (database.py 538-558): selects by id and state
complete, then assigns the hash unconditionally -- overwriting any value
already stored.  When no row matches, the source dereferences None
(AttributeError), surfaced here as an error. -/
def Conversation.setIpfsHash (conversationId : Nat) (ipfsHash : String) (now : Nat)
    (db : Db) : Except String (Conversation × Db) :=
  match db.conversations.find?
      (fun c => c.id == conversationId && c.state == ConversationState.complete) with
  | none => Except.error "AttributeError: NoneType has no attribute ipfs_hash"
  | some c =>
    let c' := { c with ipfsHash := some ipfsHash, updatedAt := now }
    Except.ok (c',
      { db with conversations :=
          db.conversations.map (fun x => if x.id == c.id then c' else x) })

/-! ## Summary operations (database.py) -/

/-- Fresh autoincrement id for a new summaries row. -/
def nextSummaryId (db : Db) : Nat :=
  db.summaries.foldl (fun m s => max m s.id) 0 + 1

/-- Summary.create (database.py 238-276).  The message count snapshot is
computed by `select(func.count()).select_from(Message)` -- a count over the
whole messages table with no filter on the conversation. -/
def Summary.create (conversationId : Nat) (now : Nat) (db : Db) : Summary × Db :=
  let messageCount := db.messages.length
  let s : Summary :=
    { id := nextSummaryId db, conversationId := conversationId,
      messageCount := messageCount, state := SummaryState.pending.columnValue,
      text := none, createdAt := now, updatedAt := now }
  (s, { db with summaries := db.summaries ++ [s] })

/-- Summary.mark (database.py 278-319): looks the summary up by id (error when
absent) and stores the text together with `str(state)` -- the Python enum
repr, not the member name -- into the state column. -/
def Summary.mark (summaryId : Nat) (text : String) (state : SummaryState) (now : Nat)
    (db : Db) : Except String Db :=
  match db.summaries.find? (fun s => s.id == summaryId) with
  | none => Except.error "summary does not exist"
  | some s =>
    let s' := { s with text := some text, state := state.pyStr, updatedAt := now }
    let rows := db.summaries.map (fun x => if x.id == summaryId then s' else x)
    Except.ok { db with summaries := rows }

/-! ## Message retrieval (database.py) -/

/-- Recency-descending order on messages (`order_by(Message.timestamp.desc())`). -/
def msgRecencyGE (a b : Message) : Prop := b.timestamp ≤ a.timestamp

instance : DecidableRel msgRecencyGE :=
  fun a b => inferInstanceAs (Decidable (b.timestamp ≤ a.timestamp))

instance : IsTotal Message msgRecencyGE :=
  ⟨fun a b => Nat.le_total b.timestamp a.timestamp⟩

instance : IsTrans Message msgRecencyGE :=
  ⟨fun _ _ _ h1 h2 => Nat.le_trans h2 h1⟩

/-- Message.read_all (database.py 636-663): filter by conversation, order by
timestamp descending, and apply the limit only when it is truthy -- Python's
`if limit:` skips the LIMIT clause both for None and for 0. -/
def Message.readAll (conversationId : Nat) (db : Db) (limit : Option Nat) :
    List Message :=
  let filtered := db.messages.filter (fun m => m.conversationId == conversationId)
  let sorted := List.insertionSort msgRecencyGE filtered
  match limit with
  | some n => if n != 0 then sorted.take n else sorted
  | none => sorted

/-! ## Command handlers (bot.py) -/

/-- The /enter command handler (bot.py 309-371): requires the chat to exist,
refuses when the chat already has an active conversation, and only then calls
Conversation.enter. -/
def enterHandler (chatId conversationId : Nat) (now : Nat) (db : Db) :
    Option Conversation × Db :=
  if db.chats.contains chatId then
    match Conversation.activeOf chatId db with
    | some _ => (none, db)
    | none => Conversation.enter chatId conversationId now db
  else (none, db)

/-- The /push command handler (bot.py 517-623): requires the chat to exist,
reads the conversation, refuses when it is not complete or when an IPFS hash
is already recorded, and only then calls Conversation.set_ipfs_hash.  The
ipfsHash argument stands for the value returned by the external
content-addressed store. -/
def pushHandler (chatId conversationId : Nat) (ipfsHash : String) (now : Nat)
    (db : Db) : Option Conversation × Db :=
  if db.chats.contains chatId then
    match Conversation.read chatId conversationId db with
    | none => (none, db)
    | some c =>
      if c.state != ConversationState.complete then (none, db)
      else if c.ipfsHash.isSome then (none, db)
      else
        match Conversation.setIpfsHash conversationId ipfsHash now db with
        | Except.ok (c', db') => (some c', db')
        | Except.error _ => (none, db)
  else (none, db)

/-- The generation tail of the /summary command handler (bot.py 689-720): the
stream's chunk texts are accumulated (an exception keeps the chunks emitted
before it), the state is failed exactly when the stream raised, and
Summary.mark runs in the finally block in both cases. -/
def summaryGenerationPhase (summaryId : Nat) (chunks : List String) (raised : Bool)
    (now : Nat) (db : Db) : Except String Db :=
  let text := String.join chunks
  let summaryState := if raised then SummaryState.failed else SummaryState.complete
  Summary.mark summaryId text summaryState now db

/-! ## The state-machine operations, packaged -/

/-- One conversation-state-machine operation, as reachable from the command
surface: create (/new), guarded enter (/enter), update_state (/exit, /cancel,
/complete) and set_ipfs_hash via the guarded /push handler. -/
inductive StateMachineOp where
  | create (chatId : Nat) (agenda : String)
  | enterCmd (chatId conversationId : Nat)
  | updateCmd (chatId : Nat) (state : ConversationState)
  | pushCmd (chatId conversationId : Nat) (ipfsHash : String)

/-- Apply one state-machine operation to the database (errors leave it
unchanged, as the handlers roll the transaction back). -/
def StateMachineOp.apply (op : StateMachineOp) (now : Nat) (db : Db) : Db :=
  match op with
  | .create chatId agenda => (Conversation.create chatId agenda now db).2
  | .enterCmd chatId conversationId => (enterHandler chatId conversationId now db).2
  | .updateCmd chatId state =>
    match Conversation.updateState chatId state now db with
    | Except.ok (_, db') => db'
    | Except.error _ => db
  | .pushCmd chatId conversationId ipfsHash =>
    (pushHandler chatId conversationId ipfsHash now db).2

/-- The single-active-per-chat invariant: every chat has at most one
conversation in state active. -/
def atMostOneActive (db : Db) : Prop :=
  ∀ chatId : Nat, db.conversations.countP (isActiveFor chatId) ≤ 1

/-- Primary-key discipline of the conversations table: row ids are unique. -/
@[reducible] def conversationIdsNodup (db : Db) : Prop :=
  (db.conversations.map Conversation.id).Nodup

/-! ## Prompt manager (agent/prompt_manager.py)

The token counter `calculate_number_of_tokens` (agent/utils.py) is an
abstract `tok : String → Nat`; the formatted Role/Objective template bodies
(external YAML files with `{name}`/`{date}` substitution and newlines
flattened) are opaque strings carried in the configuration. -/

/-- Python's `a or b` for an optional string: empty strings are falsy. -/
def pyOrStr (a : Option String) (b : String) : String :=
  match a with
  | some s => if s = "" then b else s
  | none => b

/-- The author of a chat message, as used by `fmt_msg_user_name`. -/
structure ChatUser where
  username : Option String
  firstName : Option String
  lastName : Option String
deriving DecidableEq

/-- fmt_msg_user_name (agent/utils.py 18-23):
`user.username or ((user.first_name or "") + " " + (user.last_name or ""))`. -/
def fmtMsgUserName (u : ChatUser) : String :=
  pyOrStr u.username (pyOrStr u.firstName "" ++ " " ++ pyOrStr u.lastName "")

/-- The message shape PromptManager.chat_message consumes: author, the author
of the replied-to message when present, and the text. -/
structure ChatMessage where
  fromUser : ChatUser
  replyToUser : Option ChatUser
  text : String
deriving DecidableEq

/-- PromptManager configuration (prompt_format section plus the persona name
and the formatted system-prompt template bodies). -/
structure PromptConfig where
  userPrepend : String
  userAppend : String
  logStart : String
  stopSequence : String
  lineSeparator : String
  name : String
  summaryBody : String
  proposalBody : String
deriving DecidableEq

/-- PromptManager.chat_message (prompt_manager.py 65-81). -/
def chatMessageLine (cfg : PromptConfig) (m : ChatMessage) : String :=
  let fromUserName := fmtMsgUserName m.fromUser
  let sender :=
    match m.replyToUser with
    | none => fromUserName
    | some u => fromUserName ++ " (in reply to " ++ fmtMsgUserName u ++ ")"
  cfg.userPrepend ++ sender ++ cfg.userAppend ++ m.text ++ cfg.stopSequence
    ++ cfg.lineSeparator

/-- The system prompt string assembled around a formatted template body
(prompt_manager.py 145 and 184). -/
def systemPromptText (cfg : PromptConfig) (body : String) : String :=
  cfg.userPrepend ++ "system" ++ cfg.userAppend ++ body ++ cfg.stopSequence
    ++ cfg.lineSeparator ++ cfg.logStart

/-- PromptManager.summary_system_prompt (prompt_manager.py 117-154): raises
when the system prompt alone exceeds the token limit. -/
def summarySystemPrompt (tok : String → Nat) (cfg : PromptConfig) (tokenLimit : Int) :
    Except String (String × Nat) :=
  let sp := systemPromptText cfg cfg.summaryBody
  let used := tok sp
  if (used : Int) > tokenLimit then
    Except.error "build_system_prompt(): system prompt exceeds token limit"
  else Except.ok (sp, used)

/-- PromptManager.proposal_system_prompt (prompt_manager.py 156-193). -/
def proposalSystemPrompt (tok : String → Nat) (cfg : PromptConfig) (tokenLimit : Int) :
    Except String (String × Nat) :=
  let sp := systemPromptText cfg cfg.proposalBody
  let used := tok sp
  if (used : Int) > tokenLimit then
    Except.error "build_system_prompt(): system prompt exceeds token limit"
  else Except.ok (sp, used)

/-- PromptManager.prompt_response (prompt_manager.py 83-115) as called from
build_prompt, with `message=None` and `text=""`: the response cue is
`user_prepend + name + user_append`; a limit of exactly -1 disables the
check, otherwise the cue must fit the limit. -/
def promptResponse (tok : String → Nat) (cfg : PromptConfig) (tokenLimit : Int) :
    Except String (String × Nat) :=
  let prompt := cfg.userPrepend ++ cfg.name ++ cfg.userAppend
  let used := tok prompt
  if tokenLimit == -1 then Except.ok (prompt, used)
  else if (used : Int) > tokenLimit then
    Except.error "prompt_response(): prompt exceeds token limit"
  else Except.ok (prompt, used)

/-! ## Prompt building (agent/__init__.py) -/

/-- The two prompt kinds of agent/__init__.py. -/
inductive PromptType where
  | summary
  | proposal
deriving DecidableEq

/-- The template body the given prompt type renders. -/
def systemBody (cfg : PromptConfig) : PromptType → String
  | .summary => cfg.summaryBody
  | .proposal => cfg.proposalBody

/-- The history walk of Agent.build_prompt (agent/__init__.py 109-127): walk
the newest-first messages, charging each formatted line against the limit,
and break at the first line whose inclusion would exceed it. -/
def fillChatLog (tok : String → Nat) (cfg : PromptConfig) (tokenLimit : Int) :
    List ChatMessage → Nat → List String × Nat
  | [], usedTokens => ([], usedTokens)
  | m :: ms, usedTokens =>
    let line := chatMessageLine cfg m
    let additionalTokens := tok line
    if ((usedTokens + additionalTokens : Nat) : Int) > tokenLimit then ([], usedTokens)
    else
      let rest := fillChatLog tok cfg tokenLimit ms (usedTokens + additionalTokens)
      (line :: rest.1, rest.2)

/-- Agent.build_prompt (agent/__init__.py 77-140): system prompt, then the
response cue against the remaining budget, then as much newest-first history
as fits; the included lines are reassembled in chronological order between
system prompt and cue. -/
def buildPrompt (tok : String → Nat) (cfg : PromptConfig) (tokenLimit : Int)
    (messages : List ChatMessage) (promptType : PromptType) :
    Except String (String × Nat) :=
  match (match promptType with
         | .summary => summarySystemPrompt tok cfg tokenLimit
         | .proposal => proposalSystemPrompt tok cfg tokenLimit) with
  | Except.error e => Except.error e
  | Except.ok sys =>
    match promptResponse tok cfg (tokenLimit - (sys.2 : Int)) with
    | Except.error e => Except.error e
    | Except.ok cue =>
      let basicPromptTokens := sys.2 + cue.2
      let filled := fillChatLog tok cfg tokenLimit messages basicPromptTokens
      Except.ok (sys.1 ++ String.join filled.1.reverse ++ cue.1, filled.2)

/-! ## Completion with retry and slot affinity (agent/__init__.py 142-225) -/

/-- The JSON fields of a successful llama.cpp completion response that
Agent.complete reads. -/
structure CompletionResponse where
  content : String
  stoppedEos : Bool
  stoppedWord : Bool
  idSlot : Option Int
  slotId : Option Int
deriving DecidableEq

/-- Lookup in the `model_conversation_slots` dict (sessions are abstracted
away; only the cached slot id matters to the claims). -/
def slotLookup (slots : List (Nat × Int)) (conversationId : Nat) : Option Int :=
  (slots.find? (fun p => p.1 == conversationId)).map (fun p => p.2)

/-- Python dict assignment `model_conversation_slots[cid] = (session, slot)`:
update in place when the key exists, append otherwise. -/
def slotInsert (slots : List (Nat × Int)) (conversationId : Nat) (slot : Int) :
    List (Nat × Int) :=
  if (slots.find? (fun p => p.1 == conversationId)).isSome then
    slots.map (fun p => if p.1 == conversationId then (conversationId, slot) else p)
  else slots ++ [(conversationId, slot)]

/-- The slot id Agent.complete adopts from a successful response
(agent/__init__.py 196-199): `id_slot` when present, else `slot_id` when
present, else the slot it already held. -/
def responseSlot (r : CompletionResponse) (slot : Int) : Int :=
  r.idSlot.getD (r.slotId.getD slot)

/-- The retry loop of Agent.complete (agent/__init__.py 182-225).  The
backend's behaviour is a function from the attempt index to either an error
(transport failure, non-200 status, malformed body) or a parsed response.
On success it returns the content, the locally recomputed token count, the
stopped flag, the adopted slot id, and the number of attempts made; after
exhausting the remaining attempts it fails with the accumulated errors. -/
def completeAttempts (tok : String → Nat) (backend : Nat → Except String CompletionResponse)
    (slot : Int) :
    Nat → Nat → List String → Except (List String) (String × Nat × Bool × Int × Nat)
  | _, 0, errors => Except.error errors
  | tries, remaining + 1, errors =>
    match backend tries with
    | Except.ok r =>
      let stopped := r.stoppedEos || r.stoppedWord
      Except.ok (r.content, tok r.content, stopped, responseSlot r slot, tries + 1)
    | Except.error e =>
      completeAttempts tok backend slot (tries + 1) remaining (errors ++ [e])

/-- Agent.complete (agent/__init__.py 142-225): look up the conversation's
slot (sentinel -1 when absent), run the bounded retry loop, and on success
refresh the affinity entry with the adopted slot id -- the refresh happens on
every successful response, before the stopped flag is even inspected. -/
def agentComplete (tok : String → Nat) (maxTries : Nat)
    (backend : Nat → Except String CompletionResponse)
    (slots : List (Nat × Int)) (conversationId : Nat) :
    Except (List String) (String × Nat × Bool) × List (Nat × Int) :=
  let slot := (slotLookup slots conversationId).getD (-1)
  match completeAttempts tok backend slot 0 maxTries [] with
  | Except.ok (content, tokenCount, stopped, slot', _) =>
    (Except.ok (content, tokenCount, stopped), slotInsert slots conversationId slot')
  | Except.error errors => (Except.error errors, slots)

/-! ## The response stream (agent/__init__.py 228-276) -/

/-- The mutable state of yield_response's round loop: the accumulated prompt
and the `completion_try` counter. -/
structure YieldState where
  prompt : String
  completionTry : Nat
deriving DecidableEq

/-- One iteration of yield_response's `while completion_try <
max_completion_tries` loop, with a successful completion per round modelled
as `complete : String → String × Bool` (prompt to chunk and stopped flag).
Returns none when the loop has exited (guard false), otherwise the emitted
chunk and the state for the next iteration (none after a stopped break).
Faithful to the source, `completion_try` is never incremented. -/
def yieldStep (maxCompletionTries : Nat) (complete : String → String × Bool)
    (st : YieldState) : Option ((String × Bool) × Option YieldState) :=
  if st.completionTry < maxCompletionTries then
    let round := complete st.prompt
    some (round,
      if round.2 then none
      else some { prompt := st.prompt ++ round.1, completionTry := st.completionTry })
  else none

/-- Drive yield_response for at most n pulls, collecting the emitted
(chunk, stopped) pairs. -/
def yieldRun (maxCompletionTries : Nat) (complete : String → String × Bool) :
    Nat → Option YieldState → List (String × Bool)
  | _, none => []
  | 0, some _ => []
  | n + 1, some st =>
    match yieldStep maxCompletionTries complete st with
    | none => []
    | some (chunk, st') => chunk :: yieldRun maxCompletionTries complete n st'

/-! ## Concrete fixtures used by counterexamples and witnesses -/

/-- A conversations row with the given id, chat and state. -/
def convRow (id chatId : Nat) (state : ConversationState) : Conversation :=
  { id := id, chatId := chatId, agenda := none, state := state, ipfsHash := none,
    createdAt := 0, updatedAt := 0 }

/-- A messages row with the given id, conversation and timestamp. -/
def msgRow (id conversationId timestamp : Nat) : Message :=
  { id := id, conversationId := conversationId, fromUserId := 1,
    replyToMessageId := none, text := "m", timestamp := timestamp }

/-- A summaries row with the given id, conversation and state column value. -/
def summaryRow (id conversationId : Nat) (state : String) : Summary :=
  { id := id, conversationId := conversationId, messageCount := 0, state := state,
    text := none, createdAt := 0, updatedAt := 0 }

/-- A database with no conversations at all. -/
def dbEmptyConversations : Db :=
  { chats := [1], conversations := [], summaries := [], messages := [] }

/-- Chat 1 with one active and one inactive conversation. -/
def dbOneActiveOneInactive : Db :=
  { chats := [1],
    conversations := [convRow 1 1 ConversationState.active,
                      convRow 2 1 ConversationState.inactive],
    summaries := [], messages := [] }

/-- Two conversations, with 2 messages in conversation 1 and 3 in
conversation 2. -/
def dbTwoConversations : Db :=
  { chats := [1, 2],
    conversations := [convRow 1 1 ConversationState.active,
                      convRow 2 2 ConversationState.active],
    summaries := [],
    messages := [msgRow 1 1 1, msgRow 2 1 2, msgRow 1 2 3, msgRow 2 2 4,
                 msgRow 3 2 5] }

/-- One complete conversation whose transcript hash is already recorded. -/
def dbAlreadyPushed : Db :=
  { chats := [1],
    conversations := [{ convRow 1 1 ConversationState.complete with
                        ipfsHash := some "h1" }],
    summaries := [], messages := [] }

/-- One pending summary for conversation 1. -/
def dbPendingSummary : Db :=
  { chats := [1],
    conversations := [convRow 1 1 ConversationState.active],
    summaries := [summaryRow 1 1 "pending"], messages := [] }

/-! ## C10: Message.read_all treats a limit of 0 (and None) as no limit -/

/-- C10: Message.read_all with limit 0 behaves exactly like limit None: it
returns every message of the conversation in recency-descending order, not an
empty list; only a non-zero limit restricts the result to that many most
recent messages. -/
theorem readAll_zero_limit_means_no_limit :
    ∀ (db : Db) (conversationId : Nat),
      Message.readAll conversationId db (some 0) =
        Message.readAll conversationId db none ∧
      (Message.readAll conversationId db none).Perm
        (db.messages.filter (fun m => m.conversationId == conversationId)) ∧
      List.Sorted msgRecencyGE (Message.readAll conversationId db none) ∧
      ∀ n : Nat, n ≠ 0 →
        Message.readAll conversationId db (some n) =
          (Message.readAll conversationId db none).take n := by
  intro db conversationId
  refine ⟨rfl, List.perm_insertionSort _ _, List.sorted_insertionSort _ _, ?_⟩
  intro n hn
  have h : (n != 0) = true := by simpa using hn
  simp only [Message.readAll, h, if_true]

/-- Witness for C10 at a concrete database. -/
theorem readAll_zero_limit_means_no_limit_witness :
    Message.readAll 1 dbTwoConversations (some 0) =
      Message.readAll 1 dbTwoConversations none ∧
    Message.readAll 1 dbTwoConversations (some 1) =
      (Message.readAll 1 dbTwoConversations none).take 1 :=
  ⟨(readAll_zero_limit_means_no_limit dbTwoConversations 1).1,
   (readAll_zero_limit_means_no_limit dbTwoConversations 1).2.2.2 1 (by decide)⟩

/-! ## C2: the response stream round cap is never reached (code bug) -/

/-- C2 (code bug evidence): `completion_try` is initialised to 0 and never
incremented in yield_response's while loop, so against a backend that never
reports stopped the loop guard `completion_try < max_completion_tries` stays
true forever: driving the generator n pulls emits n chunks for every n, even
with a configured maximum of 2 rounds.  The stream is unbounded, contradicting
the claimed round cap. -/
theorem yieldResponse_round_cap_never_fires :
    ∀ (n : Nat) (prompt : String),
      (yieldRun 2 (fun _ => ("x", false)) n
        (some { prompt := prompt, completionTry := 0 })).length = n := by
  intro n
  induction n with
  | zero => intro prompt; rfl
  | succ n ih =>
    intro prompt
    have hstep : yieldStep 2 (fun _ => ("x", false))
        { prompt := prompt, completionTry := 0 } =
        some (("x", false), some { prompt := prompt ++ "x", completionTry := 0 }) := rfl
    simp only [yieldRun, hstep, List.length_cons, ih]

/-! ## C3: Summary.create counts the whole messages table (code bug) -/

/-- The message count the specification says Summary.create snapshots: the
number of messages of that conversation.  This definition follows the spec's
words, for comparison with the embedded source. -/
def specConversationMessageCount (conversationId : Nat) (db : Db) : Nat :=
  (db.messages.filter (fun m => m.conversationId == conversationId)).length

/-- C3 (code bug evidence): with 2 messages in conversation 1 and 3 in
conversation 2, Summary.create(1) snapshots messageCount = 5 -- the size of
the whole messages table -- while the conversation's own message count is 2,
as the source's own comments say the field should hold. -/
theorem summaryCreate_counts_whole_table :
    (Summary.create 1 7 dbTwoConversations).1.messageCount = 5 ∧
    specConversationMessageCount 1 dbTwoConversations = 2 := by decide

/-! ## C5: Summary.mark stores str(state), not the state value (code bug) -/

/-- C5 (code bug evidence): the /summary handler's finally block does call
Summary.mark with the partial text accumulated before the stream raised, and
the summary does leave the pending state -- but the value stored into the
state column is `str(state)`, i.e. "SummaryState.failed", which is not among
the column's legal values pending/complete/failed listed in the source's own
comment. -/
theorem summaryMark_stores_python_repr :
    (summaryGenerationPhase 1 ["par", "tial"] true 9 dbPendingSummary).toOption =
      some { dbPendingSummary with
             summaries := [{ summaryRow 1 1 "SummaryState.failed" with
                             text := some "partial", updatedAt := 9 }] } ∧
    SummaryState.failed.pyStr ≠ SummaryState.failed.columnValue ∧
    (["pending", "complete", "failed"].contains SummaryState.failed.pyStr) = false ∧
    SummaryState.failed.pyStr ≠ "pending" := by decide

/-! ## C4: set_ipfs_hash is not publish-once at the database layer -/

/-- C4 counterexample: Conversation.set_ipfs_hash checks only that the
conversation is complete; it does not check whether a content id is already
recorded, so a second call with a different id overwrites the first. -/
theorem setIpfsHash_overwrites :
    dbAlreadyPushed.conversations.map Conversation.ipfsHash = [some "h1"] ∧
    (Conversation.setIpfsHash 1 "h2" 9 dbAlreadyPushed).toOption.map
        (fun p => p.2.conversations.map Conversation.ipfsHash) =
      some [some "h2"] := by decide

/-- C4 amended: the publish-once guard lives in the /push command handler,
which refuses to write when a content id is already recorded (leaving the
database unchanged), while Conversation.set_ipfs_hash itself only guarantees
that a successful write happened on a conversation in state complete. -/
theorem setIpfsHash_guards_amended :
    (∀ (chatId conversationId : Nat) (h : String) (now : Nat) (db : Db)
       (c : Conversation),
       Conversation.read chatId conversationId db = some c → c.ipfsHash.isSome →
       pushHandler chatId conversationId h now db = (none, db)) ∧
    (∀ (conversationId : Nat) (h : String) (now : Nat) (db : Db)
       (r : Conversation × Db),
       Conversation.setIpfsHash conversationId h now db = Except.ok r →
       ∃ c ∈ db.conversations, c.id = conversationId ∧
         c.state = ConversationState.complete) := by
  constructor
  · intro chatId conversationId h now db c hread hsome
    unfold pushHandler
    cases hcontains : db.chats.contains chatId
    · simp
    · simp only [hread, if_true]
      cases hst : (c.state != ConversationState.complete)
      · simp [hst, hsome]
      · simp [hst]
  · intro conversationId h now db r hok
    unfold Conversation.setIpfsHash at hok
    cases hfind : db.conversations.find?
        (fun c => c.id == conversationId &&
          c.state == ConversationState.complete) with
    | none => rw [hfind] at hok; cases hok
    | some c =>
      rw [hfind] at hok
      have hmem := List.mem_of_find?_eq_some hfind
      have hp := List.find?_some hfind
      simp only [Bool.and_eq_true, beq_iff_eq] at hp
      exact ⟨c, hmem, hp.1, hp.2⟩

/-- Witness for C4's amended theorem at a concrete database. -/
theorem setIpfsHash_guards_amended_witness :
    pushHandler 1 1 "h2" 9 dbAlreadyPushed = (none, dbAlreadyPushed) :=
  setIpfsHash_guards_amended.1 1 1 "h2" 9 dbAlreadyPushed
    { convRow 1 1 ConversationState.complete with ipfsHash := some "h1" }
    (by decide) (by decide)

/-! ## Retry-loop lemmas for Agent.complete -/

/-- When the backend fails on the first j attempts after `tries` and succeeds
on the next one, the retry loop returns that success, counting tries + j + 1
attempts in total. -/
lemma completeAttempts_first_ok (tok : String → Nat)
    (backend : Nat → Except String CompletionResponse) (slot : Int) :
    ∀ (remaining tries : Nat) (errors : List String) (j : Nat)
      (r : CompletionResponse),
      j < remaining →
      (∀ i, i < j → ∃ e, backend (tries + i) = Except.error e) →
      backend (tries + j) = Except.ok r →
      completeAttempts tok backend slot tries remaining errors =
        Except.ok (r.content, tok r.content, r.stoppedEos || r.stoppedWord,
          responseSlot r slot, tries + j + 1) := by
  intro remaining
  induction remaining with
  | zero => intro tries errors j r hj; omega
  | succ rem ih =>
    intro tries errors j r hj hfail hok
    cases j with
    | zero =>
      simp only [Nat.add_zero] at hok
      simp only [completeAttempts, hok, Nat.add_zero]
    | succ j' =>
      obtain ⟨e, he⟩ := hfail 0 (Nat.succ_pos j')
      simp only [Nat.add_zero] at he
      have hrec := ih (tries + 1) (errors ++ [e]) j' r (by omega)
        (fun i hi => by
          have := hfail (i + 1) (by omega)
          simpa [Nat.add_assoc, Nat.add_comm 1 i] using this)
        (by
          have : tries + 1 + j' = tries + (j' + 1) := by omega
          rw [this]; exact hok)
      simp only [completeAttempts, he]
      rw [hrec]
      have : tries + 1 + j' + 1 = tries + (j' + 1) + 1 := by omega
      rw [this]

/-- When the backend fails on every one of the remaining attempts, the retry
loop fails with every attempt's error appended, in attempt order. -/
lemma completeAttempts_all_fail (tok : String → Nat)
    (backend : Nat → Except String CompletionResponse) (slot : Int)
    (err : Nat → String) :
    ∀ (remaining tries : Nat) (errors : List String),
      (∀ i, i < remaining → backend (tries + i) = Except.error (err (tries + i))) →
      completeAttempts tok backend slot tries remaining errors =
        Except.error (errors ++ (List.range' tries remaining).map err) := by
  intro remaining
  induction remaining with
  | zero => intro tries errors _; simp [completeAttempts]
  | succ rem ih =>
    intro tries errors hfail
    have he := hfail 0 (Nat.succ_pos rem)
    simp only [Nat.add_zero] at he
    have hrec := ih (tries + 1) (errors ++ [err tries])
      (fun i hi => by
        have := hfail (i + 1) (by omega)
        simpa [Nat.add_assoc, Nat.add_comm 1 i] using this)
    simp only [completeAttempts, he]
    rw [hrec, List.range'_succ]
    simp [List.append_assoc]

/-! ## C6: bounded retry with aggregate error -/

/-- C6: for 1 ≤ k ≤ maxTries, a backend failing on the first k-1 attempts and
succeeding on attempt k makes the retry loop of Agent.complete return that
success after exactly k attempts; a backend failing on every attempt with
max-attempts k makes it fail with the aggregate list of all k individual
attempt errors, in order, returning no text at all. -/
theorem complete_retry_right :
    (∀ (tok : String → Nat) (backend : Nat → Except String CompletionResponse)
       (slot : Int) (k maxTries : Nat) (r : CompletionResponse),
       1 ≤ k → k ≤ maxTries →
       (∀ i, i < k - 1 → ∃ e, backend i = Except.error e) →
       backend (k - 1) = Except.ok r →
       completeAttempts tok backend slot 0 maxTries [] =
         Except.ok (r.content, tok r.content, r.stoppedEos || r.stoppedWord,
           responseSlot r slot, k)) ∧
    (∀ (tok : String → Nat) (backend : Nat → Except String CompletionResponse)
       (slot : Int) (k : Nat) (err : Nat → String),
       (∀ i, i < k → backend i = Except.error (err i)) →
       completeAttempts tok backend slot 0 k [] =
         Except.error ((List.range k).map err)) := by
  constructor
  · intro tok backend slot k maxTries r hk1 hk2 hfail hok
    have h := completeAttempts_first_ok tok backend slot maxTries 0 [] (k - 1) r
      (by omega) (fun i hi => by simpa using hfail i hi) (by simpa using hok)
    have hkk : 0 + (k - 1) + 1 = k := by omega
    rwa [hkk] at h
  · intro tok backend slot k err hfail
    have h := completeAttempts_all_fail tok backend slot err k 0 []
      (fun i hi => by simpa using hfail i hi)
    rwa [List.nil_append, ← List.range_eq_range'] at h

/-- A response the witness backend returns after one failure. -/
def responseW : CompletionResponse :=
  { content := "ok", stoppedEos := true, stoppedWord := false,
    idSlot := some 3, slotId := none }

/-- A witness backend: one failure, then success. -/
def backendW : Nat → Except String CompletionResponse :=
  fun i => if i == 0 then Except.error "boom" else Except.ok responseW

/-- Witness for C6 at a concrete backend: success on attempt 2 of 3, and
exhaustion after 2 of 2 failures. -/
theorem complete_retry_right_witness :
    completeAttempts String.length backendW 7 0 3 [] =
      Except.ok (responseW.content, String.length responseW.content,
        responseW.stoppedEos || responseW.stoppedWord, responseSlot responseW 7, 2) ∧
    completeAttempts String.length (fun _ => Except.error "down") 7 0 2 [] =
      Except.error ((List.range 2).map (fun _ => "down")) :=
  ⟨complete_retry_right.1 String.length backendW 7 2 3 responseW (by decide)
      (by decide)
      (fun i hi => ⟨"boom", by
        have hz : i = 0 := by omega
        subst hz; rfl⟩)
      rfl,
   complete_retry_right.2 String.length (fun _ => Except.error "down") 7 2
      (fun _ => "down") (fun _ _ => rfl)⟩

/-! ## Slot-affinity helper lemmas -/

/-- After an in-place dict update, lookup finds the freshly stored pair. -/
lemma find?_map_insert (conversationId : Nat) (s : Int) :
    ∀ slots : List (Nat × Int),
      (slots.find? (fun p => p.1 == conversationId)).isSome →
      ((slots.map (fun p =>
          if p.1 == conversationId then (conversationId, s) else p)).find?
        (fun p => p.1 == conversationId)) = some (conversationId, s) := by
  intro slots
  induction slots with
  | nil => intro h; simp [List.find?] at h
  | cons q qs ih =>
    intro h
    rw [List.map_cons]
    by_cases hq : (q.1 == conversationId) = true
    · rw [if_pos hq]
      exact List.find?_cons_of_pos _ (by simp)
    · have hq' : (q.1 == conversationId) = false := by simpa using hq
      rw [if_neg (by simp [hq']), List.find?_cons_of_neg _ (by simp [hq'])]
      apply ih
      rw [List.find?_cons_of_neg _ (by simp [hq'])] at h
      exact h

/-- After a dict append, lookup finds the appended pair when no earlier entry
matched. -/
lemma find?_append_insert (conversationId : Nat) (s : Int) :
    ∀ slots : List (Nat × Int),
      slots.find? (fun p => p.1 == conversationId) = none →
      ((slots ++ [(conversationId, s)]).find? (fun p => p.1 == conversationId)) =
        some (conversationId, s) := by
  intro slots hnone
  rw [List.find?_append, hnone]
  simp [List.find?]

/-- Python dict assignment then lookup: the stored slot id is found. -/
lemma slotLookup_slotInsert (slots : List (Nat × Int)) (conversationId : Nat)
    (s : Int) :
    slotLookup (slotInsert slots conversationId s) conversationId = some s := by
  unfold slotLookup slotInsert
  cases hfind : (slots.find? (fun p => p.1 == conversationId)) with
  | none =>
    simp only [hfind, Option.isSome_none, Bool.false_eq_true, if_false]
    rw [find?_append_insert conversationId s slots hfind]
    rfl
  | some q =>
    simp only [hfind, Option.isSome_some, if_true]
    rw [find?_map_insert conversationId s slots (by simp [hfind])]
    rfl

/-! ## C8: slot affinity refresh and stability -/

/-- C8: on the first successful backend response r, Agent.complete refreshes
the conversation's affinity entry to the slot id extracted from r --
preferring id_slot, falling back to slot_id, defaulting to the slot it
already held -- and this refresh happens whatever the response's stopped
flags are; hence when the response supplies no slot field the stored slot id
is exactly the one already cached (or the -1 sentinel on a first call). -/
theorem slotAffinity_refresh :
    ∀ (tok : String → Nat) (maxTries : Nat)
      (backend : Nat → Except String CompletionResponse)
      (slots : List (Nat × Int)) (conversationId j : Nat)
      (r : CompletionResponse),
      j < maxTries →
      (∀ i, i < j → ∃ e, backend i = Except.error e) →
      backend j = Except.ok r →
      slotLookup (agentComplete tok maxTries backend slots conversationId).2
          conversationId =
        some (responseSlot r ((slotLookup slots conversationId).getD (-1))) ∧
      (agentComplete tok maxTries backend slots conversationId).1 =
        Except.ok (r.content, tok r.content, r.stoppedEos || r.stoppedWord) ∧
      (r.idSlot = none → r.slotId = none →
        responseSlot r ((slotLookup slots conversationId).getD (-1)) =
          (slotLookup slots conversationId).getD (-1)) ∧
      (∀ a : Int, r.idSlot = some a →
        responseSlot r ((slotLookup slots conversationId).getD (-1)) = a) := by
  intro tok maxTries backend slots conversationId j r hj hfail hok
  have hloop := completeAttempts_first_ok tok backend
    ((slotLookup slots conversationId).getD (-1)) maxTries 0 [] j r hj
    (fun i hi => by simpa using hfail i hi) (by simpa using hok)
  unfold agentComplete
  simp only [hloop]
  refine ⟨slotLookup_slotInsert _ _ _, by trivial, ?_, ?_⟩
  · intro h1 h2
    simp [responseSlot, h1, h2]
  · intro a h1
    simp [responseSlot, h1]

/-- Witness for C8: a response carrying no slot field leaves the cached slot
id 5 in place. -/
theorem slotAffinity_refresh_witness :
    slotLookup (agentComplete String.length 1
        (fun _ => Except.ok
          { content := "c", stoppedEos := false, stoppedWord := false,
            idSlot := none, slotId := none })
        [(4, 5)] 4).2 4 =
      some (responseSlot
        { content := "c", stoppedEos := false, stoppedWord := false,
          idSlot := none, slotId := none }
        ((slotLookup [(4, 5)] 4).getD (-1))) :=
  (slotAffinity_refresh String.length 1
    (fun _ => Except.ok
      { content := "c", stoppedEos := false, stoppedWord := false,
        idSlot := none, slotId := none })
    [(4, 5)] 4 0
    { content := "c", stoppedEos := false, stoppedWord := false,
      idSlot := none, slotId := none }
    (by decide) (fun i hi => absurd hi (by omega)) rfl).1

/-! ## Prompt-building lemmas -/

/-- The prompt-kind dispatch of build_prompt, written uniformly over the
rendered template body. -/
lemma buildPrompt_system_match (tok : String → Nat) (cfg : PromptConfig) (L : Int)
    (pt : PromptType) :
    (match pt with
     | PromptType.summary => summarySystemPrompt tok cfg L
     | PromptType.proposal => proposalSystemPrompt tok cfg L) =
    (if ((tok (systemPromptText cfg (systemBody cfg pt)) : Nat) : Int) > L then
       Except.error "build_system_prompt(): system prompt exceeds token limit"
     else Except.ok (systemPromptText cfg (systemBody cfg pt),
       tok (systemPromptText cfg (systemBody cfg pt)))) := by
  cases pt <;> rfl

/-- Unfolding equation for the history walk at a cons cell. -/
lemma fillChatLog_cons (tok : String → Nat) (cfg : PromptConfig) (tokenLimit : Int)
    (m : ChatMessage) (ms : List ChatMessage) (used0 : Nat) :
    fillChatLog tok cfg tokenLimit (m :: ms) used0 =
      if ((used0 + tok (chatMessageLine cfg m) : Nat) : Int) > tokenLimit then
        ([], used0)
      else
        (chatMessageLine cfg m ::
           (fillChatLog tok cfg tokenLimit ms (used0 + tok (chatMessageLine cfg m))).1,
         (fillChatLog tok cfg tokenLimit ms (used0 + tok (chatMessageLine cfg m))).2) :=
  rfl

/-- The greedy history walk: the included lines are the formatted lines of a
prefix of the newest-first history, the used-token count stays within the
limit whenever it started within it, and the walk stopped exactly at the
first message whose line would overflow the remaining budget. -/
lemma fillChatLog_spec (tok : String → Nat) (cfg : PromptConfig) (tokenLimit : Int) :
    ∀ (messages : List ChatMessage) (used0 : Nat), ((used0 : Nat) : Int) ≤ tokenLimit →
      ∃ k : Nat,
        (fillChatLog tok cfg tokenLimit messages used0).1 =
          (messages.take k).map (chatMessageLine cfg) ∧
        (((fillChatLog tok cfg tokenLimit messages used0).2 : Nat) : Int) ≤ tokenLimit ∧
        ∀ m, messages.get? k = some m →
          (((fillChatLog tok cfg tokenLimit messages used0).2 +
              tok (chatMessageLine cfg m) : Nat) : Int) > tokenLimit := by
  intro messages
  induction messages with
  | nil =>
    intro used0 h0
    exact ⟨0, rfl, h0, fun m hm => by simp at hm⟩
  | cons m ms ih =>
    intro used0 h0
    by_cases hover : ((used0 + tok (chatMessageLine cfg m) : Nat) : Int) > tokenLimit
    · refine ⟨0, ?_, ?_, ?_⟩
      · rw [fillChatLog_cons, if_pos hover]
        rfl
      · rw [fillChatLog_cons, if_pos hover]
        exact h0
      · intro m' hm'
        have hm : m' = m := by
          have h := hm'
          simp only [List.get?_cons_zero, Option.some.injEq] at h
          exact h.symm
        subst hm
        rw [fillChatLog_cons, if_pos hover]
        exact hover
    · have hle : ((used0 + tok (chatMessageLine cfg m) : Nat) : Int) ≤ tokenLimit := by
        omega
      obtain ⟨k, h1, h2, h3⟩ := ih (used0 + tok (chatMessageLine cfg m)) hle
      refine ⟨k + 1, ?_, ?_, ?_⟩
      · rw [fillChatLog_cons, if_neg hover, List.take_succ_cons, List.map_cons, ← h1]
      · rw [fillChatLog_cons, if_neg hover]
        exact h2
      · intro m' hm'
        have hm : ms.get? k = some m' := by simpa using hm'
        rw [fillChatLog_cons, if_neg hover]
        exact h3 m' hm

/-! ## C7: prompt budget and contiguous most-recent suffix -/

/-- C7: whenever build_prompt returns, the reported used-token count is within
the token limit and the prompt is the system prompt, then the chronological
rendering of a contiguous most-recent prefix of the newest-first history,
then the response cue; moreover the walk stopped exactly at the first message
whose line would have pushed the count over the limit (all older messages
dropped). -/
theorem buildPrompt_budget_and_suffix :
    ∀ (tok : String → Nat) (cfg : PromptConfig) (tokenLimit : Int)
      (messages : List ChatMessage) (promptType : PromptType) (p : String)
      (used : Nat),
      buildPrompt tok cfg tokenLimit messages promptType = Except.ok (p, used) →
      ((used : Nat) : Int) ≤ tokenLimit ∧
      ∃ k : Nat,
        p = systemPromptText cfg (systemBody cfg promptType) ++
          String.join (((messages.take k).map (chatMessageLine cfg)).reverse) ++
          (cfg.userPrepend ++ cfg.name ++ cfg.userAppend) ∧
        ∀ m, messages.get? k = some m →
          ((used + tok (chatMessageLine cfg m) : Nat) : Int) > tokenLimit := by
  intro tok cfg L messages pt p used hok
  unfold buildPrompt at hok
  rw [buildPrompt_system_match] at hok
  by_cases h1 : ((tok (systemPromptText cfg (systemBody cfg pt)) : Nat) : Int) > L
  · simp [h1] at hok
  · rw [if_neg h1] at hok
    unfold promptResponse at hok
    dsimp only at hok
    have hne : ((L - ((tok (systemPromptText cfg (systemBody cfg pt)) : Nat) : Int)) ==
        (-1 : Int)) = false := by
      rw [beq_eq_false_iff_ne]
      omega
    rw [hne] at hok
    simp only [Bool.false_eq_true, if_false] at hok
    by_cases h2 : ((tok (cfg.userPrepend ++ cfg.name ++ cfg.userAppend) : Nat) : Int) >
        L - ((tok (systemPromptText cfg (systemBody cfg pt)) : Nat) : Int)
    · rw [if_pos h2] at hok
      dsimp only at hok
      cases hok
    · rw [if_neg h2] at hok
      dsimp only at hok
      simp only [Except.ok.injEq, Prod.mk.injEq] at hok
      obtain ⟨hp, hused⟩ := hok
      have hbasic : (((tok (systemPromptText cfg (systemBody cfg pt)) +
          tok (cfg.userPrepend ++ cfg.name ++ cfg.userAppend) : Nat) : Int)) ≤ L := by
        push_cast
        omega
      obtain ⟨k, hk1, hk2, hk3⟩ := fillChatLog_spec tok cfg L messages _ hbasic
      subst hused
      refine ⟨hk2, k, ?_, hk3⟩
      rw [← hp, hk1]

/-- Witness configuration for the prompt-building claims. -/
def cfgW : PromptConfig :=
  { userPrepend := "<", userAppend := ">", logStart := "", stopSequence := ".",
    lineSeparator := "", name := "B", summaryBody := "S", proposalBody := "P" }

/-- Witness for C7: a concrete successful build stays within the budget and
has the suffix shape. -/
theorem buildPrompt_budget_and_suffix_witness :
    (((13 : Nat) : Nat) : Int) ≤ 100 ∧
    ∃ k : Nat,
      "<system>S.<B>" = systemPromptText cfgW (systemBody cfgW PromptType.summary) ++
        String.join (((([] : List ChatMessage).take k).map (chatMessageLine cfgW)).reverse) ++
        (cfgW.userPrepend ++ cfgW.name ++ cfgW.userAppend) ∧
      ∀ m, ([] : List ChatMessage).get? k = some m →
        ((13 + String.length (chatMessageLine cfgW m) : Nat) : Int) > 100 :=
  buildPrompt_budget_and_suffix String.length cfgW 100 [] PromptType.summary
    "<system>S.<B>" 13 rfl

/-! ## C9: build fails only when system prompt plus cue exceed the limit -/

/-- C9: build_prompt returns a usable prompt if and only if the system prompt
plus the response cue alone fit within the token limit -- in particular it
succeeds for every history, even when zero history messages fit, and the only
budget failures are the degenerate configurations where the fixed parts
already exceed the limit. -/
theorem buildPrompt_fails_iff_fixed_parts_exceed :
    ∀ (tok : String → Nat) (cfg : PromptConfig) (tokenLimit : Int)
      (messages : List ChatMessage) (promptType : PromptType),
      (∃ r, buildPrompt tok cfg tokenLimit messages promptType = Except.ok r) ↔
      ((tok (systemPromptText cfg (systemBody cfg promptType)) +
          tok (cfg.userPrepend ++ cfg.name ++ cfg.userAppend) : Nat) : Int) ≤
        tokenLimit := by
  intro tok cfg L messages pt
  unfold buildPrompt
  rw [buildPrompt_system_match]
  by_cases h1 : ((tok (systemPromptText cfg (systemBody cfg pt)) : Nat) : Int) > L
  · rw [if_pos h1]
    dsimp only
    constructor
    · rintro ⟨r, hr⟩
      cases hr
    · intro hle
      exfalso
      push_cast at hle
      push_cast at h1
      omega
  · rw [if_neg h1]
    unfold promptResponse
    dsimp only
    have hne : ((L - ((tok (systemPromptText cfg (systemBody cfg pt)) : Nat) : Int)) ==
        (-1 : Int)) = false := by
      rw [beq_eq_false_iff_ne]
      omega
    rw [hne]
    simp only [Bool.false_eq_true, if_false]
    by_cases h2 : ((tok (cfg.userPrepend ++ cfg.name ++ cfg.userAppend) : Nat) : Int) >
        L - ((tok (systemPromptText cfg (systemBody cfg pt)) : Nat) : Int)
    · rw [if_pos h2]
      dsimp only
      constructor
      · rintro ⟨r, hr⟩
        cases hr
      · intro hle
        exfalso
        push_cast at hle
        push_cast at h2
        omega
    · rw [if_neg h2]
      dsimp only
      constructor
      · intro _
        push_cast
        push_cast at h1 h2
        omega
      · intro _
        exact ⟨_, rfl⟩

/-- Witness for C9: with the fixed parts fitting a limit of 100 the build
succeeds, and with a limit of 0 it fails. -/
theorem buildPrompt_fails_iff_fixed_parts_exceed_witness :
    (∃ r, buildPrompt String.length cfgW 100 [] PromptType.summary = Except.ok r) ∧
    ¬ (∃ r, buildPrompt String.length cfgW 0 [] PromptType.summary = Except.ok r) :=
  ⟨(buildPrompt_fails_iff_fixed_parts_exceed String.length cfgW 100 []
      PromptType.summary).mpr (by decide),
   fun h => absurd ((buildPrompt_fails_iff_fixed_parts_exceed String.length cfgW 0 []
      PromptType.summary).mp h) (by decide)⟩

/-! ## Single-active-per-chat invariant lemmas -/

/-- A list of conversations with pairwise-distinct ids has at most one row
with any given id. -/
lemma countP_id_le_one (conversationId : Nat) :
    ∀ l : List Conversation, (l.map Conversation.id).Nodup →
      l.countP (fun x => x.id == conversationId) ≤ 1 := by
  intro l
  induction l with
  | nil => intro _; simp
  | cons c cs ih =>
    intro hn
    rw [List.map_cons, List.nodup_cons] at hn
    by_cases hc : (c.id == conversationId) = true
    · rw [List.countP_cons_of_pos (fun x : Conversation => x.id == conversationId) _ hc]
      have hzero : cs.countP (fun x => x.id == conversationId) = 0 := by
        rw [List.countP_eq_zero]
        intro x hx hpx
        have hxid : x.id = conversationId := by simpa using hpx
        have hcid : c.id = conversationId := by simpa using hc
        exact hn.1 (List.mem_map.mpr ⟨x, hx, by rw [hxid, hcid]⟩)
      rw [hzero]
    · rw [List.countP_cons_of_neg (fun x : Conversation => x.id == conversationId) _
        (by simpa using hc)]
      exact ih hn.2

/-- Conversation.create preserves the single-active-per-chat invariant: it
only adds an active conversation to a chat that had none. -/
lemma create_preserves_single_active (chatId : Nat) (agenda : String) (now : Nat)
    (db : Db) (h : atMostOneActive db) :
    atMostOneActive (Conversation.create chatId agenda now db).2 := by
  unfold Conversation.create
  cases hact : Conversation.activeOf chatId db with
  | some c => exact h
  | none =>
    dsimp only
    intro chat
    rw [List.countP_append]
    unfold Conversation.activeOf at hact
    rw [List.find?_eq_none] at hact
    by_cases hchat : chat = chatId
    · subst hchat
      have hzero : db.conversations.countP (isActiveFor chat) = 0 :=
        List.countP_eq_zero.mpr hact
      rw [hzero, Nat.zero_add,
        List.countP_cons_of_pos (isActiveFor chat) _ (by simp [isActiveFor]),
        List.countP_nil]
    · have hone : List.countP (isActiveFor chat)
          [{ id := nextConversationId db, chatId := chatId, agenda := some agenda,
             state := ConversationState.active, ipfsHash := none,
             createdAt := now, updatedAt := now }] = 0 := by
        rw [List.countP_eq_zero]
        intro a ha
        have haa := List.mem_singleton.mp ha
        subst haa
        simp only [isActiveFor, Bool.and_eq_true, beq_iff_eq]
        intro hfalse
        exact hchat hfalse.1.symm
      rw [hone, Nat.add_zero]
      exact h chat

/-- The guarded /enter flow preserves the single-active-per-chat invariant:
it only activates a conversation of a chat that had no active one. -/
lemma enterHandler_preserves_single_active (chatId conversationId now : Nat)
    (db : Db) (hids : conversationIdsNodup db) (h : atMostOneActive db) :
    atMostOneActive (enterHandler chatId conversationId now db).2 := by
  unfold enterHandler
  by_cases hcont : db.chats.contains chatId = true
  · rw [if_pos hcont]
    cases hact : Conversation.activeOf chatId db with
    | some c => exact h
    | none =>
      unfold Conversation.enter
      cases hread : Conversation.read chatId conversationId db with
      | none => exact h
      | some c =>
        dsimp only
        intro chat
        rw [List.countP_map]
        have hmem : c ∈ db.conversations :=
          List.mem_of_find?_eq_some hread
        have hcpred := List.find?_some hread
        simp only [Bool.and_eq_true, beq_iff_eq] at hcpred
        have hnoact : ∀ x ∈ db.conversations, ¬ isActiveFor chatId x := by
          unfold Conversation.activeOf at hact
          exact List.find?_eq_none.mp hact
        by_cases hchat : chat = chatId
        · subst hchat
          refine Nat.le_trans (List.countP_mono_left ?_)
            (countP_id_le_one c.id db.conversations hids)
          intro x hx hpx
          simp only [Function.comp_apply] at hpx
          by_cases hid : (x.id == c.id) = true
          · exact hid
          · exfalso
            rw [if_neg (by simpa using hid)] at hpx
            exact hnoact x hx hpx
        · rw [List.countP_congr ?_]
          · exact h chat
          intro x hx
          simp only [Function.comp_apply]
          by_cases hid : (x.id == c.id) = true
          · rw [if_pos hid]
            have hxc : x = c :=
              List.inj_on_of_nodup_map hids hx hmem (by simpa using hid)
            subst hxc
            simp only [isActiveFor, Bool.and_eq_true, beq_iff_eq]
            constructor
            · intro hfalse
              exact absurd hfalse.1 (by rw [hcpred.2]; exact fun e => hchat e.symm)
            · intro hfalse
              exact absurd hfalse.1 (by rw [hcpred.2]; exact fun e => hchat e.symm)
          · rw [if_neg (by simpa using hid)]
  · rw [if_neg hcont]
    exact h

/-- Conversation.update_state preserves the single-active-per-chat invariant:
it only moves a conversation out of the active state. -/
lemma updateState_preserves_single_active (chatId : Nat)
    (state : ConversationState) (now : Nat) (db : Db) (h : atMostOneActive db) :
    atMostOneActive
      (match Conversation.updateState chatId state now db with
       | Except.ok (_, db') => db'
       | Except.error _ => db) := by
  unfold Conversation.updateState
  by_cases hst : (state == ConversationState.active) = true
  · rw [if_pos hst]
    exact h
  · rw [if_neg hst]
    cases hact : Conversation.activeOf chatId db with
    | none => exact h
    | some c =>
      dsimp only
      intro chat
      rw [List.countP_map]
      refine Nat.le_trans (List.countP_mono_left ?_) (h chat)
      intro x hx hpx
      simp only [Function.comp_apply] at hpx
      by_cases hid : (x.id == c.id) = true
      · exfalso
        rw [if_pos hid] at hpx
        simp only [isActiveFor, Bool.and_eq_true] at hpx
        exact absurd hpx.2 (by simpa using hst)
      · rw [if_neg (by simpa using hid)] at hpx
        exact hpx

/-- The /push flow preserves the single-active-per-chat invariant: writing an
IPFS hash never changes any conversation state. -/
lemma pushHandler_preserves_single_active (chatId conversationId : Nat)
    (ipfsHash : String) (now : Nat) (db : Db) (hids : conversationIdsNodup db)
    (h : atMostOneActive db) :
    atMostOneActive (pushHandler chatId conversationId ipfsHash now db).2 := by
  unfold pushHandler
  by_cases hcont : db.chats.contains chatId = true
  · rw [if_pos hcont]
    cases hread : Conversation.read chatId conversationId db with
    | none => exact h
    | some c =>
      dsimp only
      by_cases hst : (c.state != ConversationState.complete) = true
      · rw [if_pos hst]
        exact h
      · rw [if_neg hst]
        by_cases hhash : c.ipfsHash.isSome = true
        · rw [if_pos hhash]
          exact h
        · rw [if_neg hhash]
          unfold Conversation.setIpfsHash
          cases hfind : db.conversations.find?
              (fun x => x.id == conversationId &&
                x.state == ConversationState.complete) with
          | none => exact h
          | some c2 =>
            dsimp only
            intro chat
            rw [List.countP_map]
            have hmem2 : c2 ∈ db.conversations :=
              List.mem_of_find?_eq_some hfind
            rw [List.countP_congr ?_]
            · exact h chat
            intro x hx
            simp only [Function.comp_apply]
            by_cases hid : (x.id == c2.id) = true
            · rw [if_pos hid]
              have hxc : x = c2 :=
                List.inj_on_of_nodup_map hids hx hmem2 (by simpa using hid)
              subst hxc
              exact Iff.rfl
            · rw [if_neg (by simpa using hid)]
  · rw [if_neg hcont]
    exact h

/-! ## C1: single-active-per-chat under the state-machine operations -/

/-- C1 counterexample: Conversation.enter as written in database.py performs
no single-active-per-chat check at all -- on a chat that already has an
active conversation it happily activates a second one, breaking the
invariant; the claim attributes the guard to enter itself. -/
theorem enter_breaks_single_active :
    atMostOneActive dbOneActiveOneInactive ∧
    conversationIdsNodup dbOneActiveOneInactive ∧
    (Conversation.enter 1 2 5 dbOneActiveOneInactive).1.isSome = true ∧
    ¬ atMostOneActive (Conversation.enter 1 2 5 dbOneActiveOneInactive).2 := by
  refine ⟨?_, by decide, by decide, fun hcontra => ?_⟩
  · intro chat
    show List.countP (isActiveFor chat)
      [convRow 1 1 ConversationState.active,
       convRow 2 1 ConversationState.inactive] ≤ 1
    have h2 : isActiveFor chat (convRow 2 1 ConversationState.inactive) = false := by
      simp [isActiveFor, convRow]
    rw [List.countP_cons, List.countP_cons, List.countP_nil, h2]
    simp only [Bool.false_eq_true, if_false, Nat.zero_add, Nat.add_zero]
    split <;> omega
  · have hcount := hcontra 1
    revert hcount
    decide

/-- C1 amended: the single-active-per-chat invariant is preserved by every
state-machine operation as wired to the command surface -- create, the /enter
flow (whose guard lives in the command handler, not in Conversation.enter),
update_state and the /push flow -- given the primary-key uniqueness of
conversation ids; create returns a no-result when an active conversation
exists, and the /enter flow returns a no-result when the guard is violated or
the target conversation does not exist. -/
theorem stateMachine_single_active_amended :
    (∀ (op : StateMachineOp) (now : Nat) (db : Db),
       conversationIdsNodup db → atMostOneActive db →
       atMostOneActive (op.apply now db)) ∧
    (∀ (chatId : Nat) (agenda : String) (now : Nat) (db : Db),
       (Conversation.activeOf chatId db).isSome = true →
       Conversation.create chatId agenda now db = (none, db)) ∧
    (∀ (chatId conversationId now : Nat) (db : Db),
       db.chats.contains chatId = true →
       (Conversation.activeOf chatId db).isSome = true →
       enterHandler chatId conversationId now db = (none, db)) ∧
    (∀ (chatId conversationId now : Nat) (db : Db),
       Conversation.read chatId conversationId db = none →
       (enterHandler chatId conversationId now db).1 = none) := by
  refine ⟨?_, ?_, ?_, ?_⟩
  · intro op now db hids h
    cases op with
    | create chatId agenda =>
      exact create_preserves_single_active chatId agenda now db h
    | enterCmd chatId conversationId =>
      exact enterHandler_preserves_single_active chatId conversationId now db hids h
    | updateCmd chatId state =>
      exact updateState_preserves_single_active chatId state now db h
    | pushCmd chatId conversationId ipfsHash =>
      exact pushHandler_preserves_single_active chatId conversationId ipfsHash now
        db hids h
  · intro chatId agenda now db hsome
    unfold Conversation.create
    cases hact : Conversation.activeOf chatId db with
    | some c => rfl
    | none => rw [hact] at hsome; cases hsome
  · intro chatId conversationId now db hcont hsome
    unfold enterHandler
    rw [if_pos hcont]
    cases hact : Conversation.activeOf chatId db with
    | some c => rfl
    | none => rw [hact] at hsome; cases hsome
  · intro chatId conversationId now db hread
    unfold enterHandler
    by_cases hcont : db.chats.contains chatId = true
    · rw [if_pos hcont]
      cases hact : Conversation.activeOf chatId db with
      | some c => rfl
      | none =>
        unfold Conversation.enter
        rw [hread]
    · rw [if_neg hcont]

/-- Witness for C1's amended theorem: the guarded /enter flow applied on a
concrete database with no active conversation keeps the invariant. -/
theorem stateMachine_single_active_amended_witness :
    atMostOneActive ((StateMachineOp.enterCmd 1 2).apply 5 dbEmptyConversations) ∧
    (enterHandler 1 7 5 dbOneActiveOneInactive).1 = none :=
  ⟨stateMachine_single_active_amended.1 (StateMachineOp.enterCmd 1 2) 5
      dbEmptyConversations (by decide)
      (fun chat => by simp [dbEmptyConversations, List.countP_nil]),
   stateMachine_single_active_amended.2.2.2 1 7 5 dbOneActiveOneInactive
      (by decide)⟩

end DaoM8
